import Mathlib

/-
Shallow embedding of the task-offload / worker-pool subsystem of
franktorio-tbs-bot:
  - src/workers/queue.py   (class WorkerQueue)
  - src/workers/worker.py  (class Worker)
  - src/core/decorators.py (offload_fallback, offload_fallback_return)

Conventions of the embedding:
  - Python `None` is `Option.none`; a Python value of type `T | None`
    is `Option T`.
  - A Python method mutating `self` becomes a function returning the
    updated record alongside its return value.
  - The unbounded `while True` loop of `_get_nearest_running_worker`
    is embedded with an explicit fuel parameter; a result of `none`
    means the loop has not terminated within the given probe budget
    (so `∀ fuel, ... = none` states divergence).
  - Object identity (Python references) is modelled by the `ref` field
    of `Worker`: the pool list stores worker values, and occurrence of
    a given worker object in the pool is counted by `ref`.
-/

/-- Embeds `Worker.__init__` state (src/workers/worker.py).
`ref` models the Python object identity; `index` is `self.index`
(`None` until registration); `running` is `self.running`;
`tasks_performed` is `self.tasks_performed`; `hasThread` models
`self.thread is not None`; `threadsSpawned` counts how many times this
worker called `threading.Thread(...).start()` (0 or 1 in the code). -/
structure Worker where
  ref : Nat
  index : Option Nat
  running : Bool
  tasks_performed : Nat
  hasThread : Bool
  threadsSpawned : Nat
deriving Repr, DecidableEq

/-- Embeds `WorkerQueue` state (src/workers/queue.py): `_workers` and
`_worker_index`. -/
structure WorkerQueue where
  workers : List Worker
  worker_index : Nat
deriving Repr, DecidableEq

/-- The cursor value actually used for indexing, after the in-place
normalization `if self._worker_index >= len(self._workers): self._worker_index = 0`. -/
def WorkerQueue.normIndex (q : WorkerQueue) : Nat :=
  if q.workers.length ≤ q.worker_index then 0 else q.worker_index

/-- Possible outcomes of `WorkerQueue.get_worker`: a worker was returned
(with the queue state at return), Python `None` was returned (with the
queue state at return), or an `IndexError` escaped from
`self._workers[self._worker_index]`. -/
inductive SelectOutcome where
  | found (w : Worker) (q : WorkerQueue)
  | noWorker (q : WorkerQueue)
  | indexError
deriving Repr, DecidableEq

/-- Embeds `get_worker(search=False)` (src/workers/queue.py lines 21-33
with the search branch disabled, exactly as `_get_nearest_running_worker`
invokes it): normalize the cursor, index the list (`none` = IndexError on
an empty pool), advance the cursor, return the worker. -/
def WorkerQueue.getWorkerNoSearch (q : WorkerQueue) : Option (Worker × WorkerQueue) :=
  let i := q.normIndex
  match q.workers.get? i with
  | none => none
  | some w => some (w, ⟨q.workers, i + 1⟩)

/-- Embeds `WorkerQueue._get_nearest_running_worker` (src/workers/queue.py
lines 10-19). `start` is the captured `start_index`; the `while True` loop
is driven by `fuel`: result `none` means the loop is still running after
`fuel` probes, `some o` means the Python method returned (or raised) with
outcome `o`. -/
def WorkerQueue.nearestRunningFuel (start : Nat) : Nat → WorkerQueue → Option SelectOutcome
  | 0, _ => none
  | fuel + 1, q =>
    match q.getWorkerNoSearch with
    | none => some .indexError
    | some (w, q') =>
      if w.running then some (.found w q')
      else if q'.worker_index = start then some (.noWorker q')
      else WorkerQueue.nearestRunningFuel start fuel q'

/-- Embeds `WorkerQueue.get_worker` (src/workers/queue.py lines 21-33).
The cursor is normalized in place, the list is indexed (IndexError on an
empty pool), and if the selected worker is not running and `search` is
set, `_get_nearest_running_worker` runs from the current (normalized)
cursor; on its success the outer `self._worker_index += 1` still fires.
`fuel` bounds the inner search loop as in `nearestRunningFuel`. -/
def WorkerQueue.get_worker (q : WorkerQueue) (fuel : Nat) (search : Bool) : Option SelectOutcome :=
  let i := q.normIndex
  match q.workers.get? i with
  | none => some .indexError
  | some w =>
    if w.running = false ∧ search = true then
      match WorkerQueue.nearestRunningFuel i fuel ⟨q.workers, i⟩ with
      | none => none
      | some .indexError => some .indexError
      | some (.noWorker q') => some (.noWorker q')
      | some (.found w' q') => some (.found w' ⟨q'.workers, q'.worker_index + 1⟩)
    else some (.found w ⟨q.workers, i + 1⟩)

/-- Embeds `WorkerQueue.add_worker` (src/workers/queue.py lines 35-41):
appends and returns the new index `len(self._workers) - 1`. -/
def WorkerQueue.add_worker (q : WorkerQueue) (w : Worker) : Nat × WorkerQueue :=
  (q.workers.length, ⟨q.workers ++ [w], q.worker_index⟩)

/-- Embeds `Worker.start` (src/workers/worker.py lines 51-57):
`self.index = WORKER_QUEUE.add_worker(self)` runs unconditionally; the
thread is spawned only under `if self.thread is None`. The value appended
to the pool is this worker (identity `ref`). -/
def Worker.start (w : Worker) (q : WorkerQueue) : Worker × WorkerQueue :=
  let r := q.add_worker w
  let w' : Worker := { w with index := some r.1 }
  if w'.hasThread then (w', r.2)
  else ({ w' with hasThread := true, threadsSpawned := w.threadsSpawned + 1 }, r.2)

/-- The behaviour of the submitted task's future as observed by the
waiting code in `execute_task` / `execute_task_return`: the future
resolved with a value, `result(timeout=...)` raised
`concurrent.futures.TimeoutError`, or the task raised an exception. -/
inductive TaskResult (α : Type) where
  | resolved (v : α)
  | timedOut
  | raised
deriving Repr, DecidableEq

/-- Tests whether a `TaskResult` is a resolution. -/
def TaskResult.isResolved : TaskResult α → Bool
  | .resolved _ => true
  | _ => false

/-- Result of a submission: the value returned to the caller, the
worker's state afterwards, and whether the task was actually scheduled
on the worker's loop (`run_coroutine_threadsafe` reached). -/
structure SubmitResult (ρ : Type) where
  ret : ρ
  worker : Worker
  scheduled : Bool
deriving Repr, DecidableEq

/-- Embeds `Worker.execute_task` (src/workers/worker.py lines 59-95):
guard on `running`; schedule the coroutine; `task_timeout == 0` returns
`True` at once after incrementing `tasks_performed`; otherwise wait:
success increments the counter and returns `True`, `TimeoutError` and
task exceptions return `False` without touching the counter. -/
def Worker.execute_task (w : Worker) (task_timeout : Option Nat) (res : TaskResult α) :
    SubmitResult Bool :=
  if w.running = false then ⟨false, w, false⟩
  else if task_timeout = some 0 then
    ⟨true, { w with tasks_performed := w.tasks_performed + 1 }, true⟩
  else
    match res with
    | .resolved _ => ⟨true, { w with tasks_performed := w.tasks_performed + 1 }, true⟩
    | .timedOut => ⟨false, w, true⟩
    | .raised => ⟨false, w, true⟩

/-- Embeds `Worker.execute_task_return` (src/workers/worker.py lines
97-133): same control flow as `execute_task` but hands back the task's
resolved value as-is (a task resolving with Python `None` yields `none`),
and yields `None` on the `task_timeout == 0` path, on `TimeoutError` and
on task exceptions. -/
def Worker.execute_task_return (w : Worker) (task_timeout : Option Nat)
    (res : TaskResult (Option α)) : SubmitResult (Option α) :=
  if w.running = false then ⟨none, w, false⟩
  else if task_timeout = some 0 then
    ⟨none, { w with tasks_performed := w.tasks_performed + 1 }, true⟩
  else
    match res with
    | .resolved v => ⟨v, { w with tasks_performed := w.tasks_performed + 1 }, true⟩
    | .timedOut => ⟨none, w, true⟩
    | .raised => ⟨none, w, true⟩

/-- Embeds `task_timeout = kwargs.pop('task_timeout', None)` in both
decorators (src/core/decorators.py lines 33 and 80). The outer `Option`
is presence of the `task_timeout` key in the call's kwargs; the inner
`Option Nat` is the supplied timeout policy (`none` = Python `None` =
wait indefinitely, `some 0` = fire-and-forget, `some t` = bounded). -/
def gatewayTaskTimeout (kwargsTimeout : Option (Option Nat)) : Option Nat :=
  kwargsTimeout.getD none

/-- Modelled from the spec: `WORKER_QUEUE.get_available_worker`, called by
both decorators in src/core/decorators.py, is defined in
`src/workers/__init__.py`, which is not among the provided sources. Per
spec section 4.3 step 2 the gateway asks the pool for a worker with
`requireLive = false` (the plain round-robin selection), and per spec
section 7 `NoWorkerAvailable` — a pool with zero registered workers —
is recovered locally by yielding no worker rather than an error. -/
def WorkerQueue.get_available_worker (q : WorkerQueue) : Option Worker × WorkerQueue :=
  match q.get_worker 0 false with
  | some (.found w q') => (some w, q')
  | _ => (none, q)

/-- Observable trace of one gateway-wrapped call: the value returned to
the caller, whether a task was scheduled on a worker's loop, whether the
wrapped capability ran against the master bot (fallback path), the
timeout value popped from the call's kwargs (`task_timeout` in the
source), the timeout policy handed to an actual worker submission
(`none` when no worker submission ever ran), and the selected worker's
state after the call. -/
structure GatewayTrace (ρ : Type) where
  ret : ρ
  workerScheduled : Bool
  fallbackRan : Bool
  task_timeout : Option Nat
  submitted : Option (Option Nat)
  workerAfter : Option Worker
deriving Repr, DecidableEq

/-- Embeds the wrapper of `offload_fallback` (src/core/decorators.py
lines 25-54). After popping `task_timeout` and selecting a worker, the
source submits with
`await loop.run_in_executor(None, worker.execute_task, func, *args,
task_timeout=task_timeout, **kwargs)`. `run_in_executor(executor, func,
*args)` accepts positional arguments only, and the `task_timeout=...`
keyword is present at this call site unconditionally, so the expression
raises `TypeError` before `worker.execute_task` is ever invoked; the
surrounding `except Exception` catches it and `success` stays `False`.
Hence on every call — worker obtained or not — no task is scheduled on a
worker, `if not success:` fires, the capability runs against the master
bot, and the wrapper returns `True`. -/
def offload_fallback (q : WorkerQueue) (kwargsTimeout : Option (Option Nat)) :
    GatewayTrace Bool :=
  let task_timeout := gatewayTaskTimeout kwargsTimeout
  match q.get_available_worker.1 with
  | none => ⟨true, false, true, task_timeout, none, none⟩
  | some w => ⟨true, false, true, task_timeout, none, some w⟩

/-- Embeds the wrapper of `offload_fallback_return` (src/core/decorators.py
lines 71-99). Same structure as `offload_fallback`: the
`run_in_executor(None, worker.execute_task_return, func, *args,
task_timeout=task_timeout, **kwargs)` expression raises `TypeError` on
its keyword arguments before `worker.execute_task_return` runs, the
`except Exception` catches it, `result` stays `None`, so
`if result is None:` fires on every call and the wrapper returns the
fallback execution's result. -/
def offload_fallback_return (q : WorkerQueue) (kwargsTimeout : Option (Option Nat))
    (fallbackResult : Option α) : GatewayTrace (Option α) :=
  let task_timeout := gatewayTaskTimeout kwargsTimeout
  match q.get_available_worker.1 with
  | none => ⟨fallbackResult, false, true, task_timeout, none, none⟩
  | some w => ⟨fallbackResult, false, true, task_timeout, none, some w⟩

/-- Runs `n` successive `get_worker` selections, collecting the returned
values (`some w` for a worker, `none` for Python `None`); stops early on
an IndexError or on search-loop divergence. -/
def runSelections (fuel : Nat) (search : Bool) : Nat → WorkerQueue → List (Option Worker) × WorkerQueue
  | 0, q => ([], q)
  | n + 1, q =>
    match q.get_worker fuel search with
    | some (.found w q') =>
      let r := runSelections fuel search n q'
      (some w :: r.1, r.2)
    | some (.noWorker q') =>
      let r := runSelections fuel search n q'
      (none :: r.1, r.2)
    | _ => ([], q)

/- Sample concrete values used by witnesses and counterexamples. -/

/-- A running worker with identity 0, registered at index 0. -/
def w0 : Worker := ⟨0, some 0, true, 0, true, 1⟩

/-- A running worker with identity 1, registered at index 1. -/
def w1 : Worker := ⟨1, some 1, true, 0, true, 1⟩

/-- A registered worker that is not running. -/
def deadWorker : Worker := ⟨2, some 0, false, 0, true, 1⟩

/-- A freshly constructed worker (never started, never registered). -/
def wFresh : Worker := ⟨7, none, false, 0, false, 0⟩

/-- A pool with a single dead worker and the cursor at its initial
value 0. -/
def qAllDead : WorkerQueue := ⟨[deadWorker], 0⟩

example : (WorkerQueue.get_worker ⟨[], 5⟩ 3 true) = some .indexError := by decide
example : (WorkerQueue.get_worker ⟨[w0, w1], 0⟩ 0 false) =
    some (.found w0 ⟨[w0, w1], 1⟩) := by decide
example : qAllDead.get_worker 50 true = none := by decide
example : (WorkerQueue.get_worker ⟨[w0, deadWorker], 1⟩ 5 true) =
    some (.found w0 ⟨[w0, deadWorker], 2⟩) := by decide

/- ------------------------------------------------------------------ -/
/- Claim theorems                                                      -/
/- ------------------------------------------------------------------ -/

/-- C9: for every worker with `running = false`, `execute_task` returns
`False` and `execute_task_return` returns `None` immediately, the task is
not scheduled on the worker's loop, and the worker's state (including
`tasks_performed`) is unchanged. -/
theorem not_running_guard (w : Worker) (hw : w.running = false) (t t' : Option Nat)
    (res : TaskResult Unit) (res' : TaskResult (Option Nat)) :
    w.execute_task t res = ⟨false, w, false⟩ ∧
    w.execute_task_return t' res' = ⟨none, w, false⟩ := by
  constructor <;> simp [Worker.execute_task, Worker.execute_task_return, hw]

/-- C9 witness: the guard at a concrete dead worker. -/
theorem not_running_guard_witness :
    wFresh.execute_task (some 5) (TaskResult.resolved ()) = ⟨false, wFresh, false⟩ ∧
    wFresh.execute_task_return (some 5) (TaskResult.resolved (some 3)) = ⟨none, wFresh, false⟩ :=
  not_running_guard wFresh (by decide) (some 5) (some 5)
    (TaskResult.resolved ()) (TaskResult.resolved (some 3))

/-- C8: for every running worker, a submission with timeout policy 0
(fire-and-forget) schedules the task and returns immediately without
waiting on the future: `execute_task` returns `True` and
`execute_task_return` returns `None`, and the returned outcome is
identical no matter what the scheduled task later does. -/
theorem fire_and_forget_immediate (w : Worker) (hw : w.running = true)
    (res₁ res₂ : TaskResult Unit) (res₃ res₄ : TaskResult (Option Nat)) :
    w.execute_task (some 0) res₁ =
      ⟨true, { w with tasks_performed := w.tasks_performed + 1 }, true⟩ ∧
    w.execute_task (some 0) res₁ = w.execute_task (some 0) res₂ ∧
    w.execute_task_return (some 0) res₃ =
      ⟨none, { w with tasks_performed := w.tasks_performed + 1 }, true⟩ ∧
    w.execute_task_return (some 0) res₃ = w.execute_task_return (some 0) res₄ := by
  refine ⟨?_, ?_, ?_, ?_⟩ <;>
    simp [Worker.execute_task, Worker.execute_task_return, hw]

/-- C8 witness: fire-and-forget at a concrete running worker, once with a
task that later succeeds and once with a task that later raises. -/
theorem fire_and_forget_immediate_witness :
    w0.execute_task (some 0) (TaskResult.resolved ()) =
      ⟨true, { w0 with tasks_performed := 1 }, true⟩ ∧
    w0.execute_task (some 0) (TaskResult.resolved ()) =
      w0.execute_task (some 0) (TaskResult.raised : TaskResult Unit) ∧
    w0.execute_task_return (some 0) (TaskResult.resolved (some 4)) =
      ⟨none, { w0 with tasks_performed := 1 }, true⟩ ∧
    w0.execute_task_return (some 0) (TaskResult.resolved (some 4)) =
      w0.execute_task_return (some 0) (TaskResult.raised : TaskResult (Option Nat)) :=
  fire_and_forget_immediate w0 (by decide) (TaskResult.resolved ()) TaskResult.raised
    (TaskResult.resolved (some 4)) TaskResult.raised

/-- C10: on a pool with zero registered workers, `get_worker` — with
either value of the `search` flag and any cursor value — neither returns
`None` nor a worker: it raises an out-of-range IndexError from
`self._workers[self._worker_index]`, because the cursor normalization
only re-ranges the cursor for non-empty pools. -/
theorem empty_pool_index_error (s : Bool) (c fuel : Nat) :
    WorkerQueue.get_worker ⟨[], c⟩ fuel s = some .indexError := by
  simp [WorkerQueue.get_worker, WorkerQueue.normIndex]

/-- C4 counterexample: at a running worker, a bounded-wait submission whose
task raises an exception leaves `tasks_performed` unchanged in both
submission variants — the code does not increment the counter on the
exception outcome, while the claim says the counter increases on every
outcome that is not a timeout failure, exceptions included. -/
theorem tasks_performed_exception_cex :
    w0.running = true ∧
    (w0.execute_task (some 5) (TaskResult.raised : TaskResult Unit)).worker.tasks_performed
      = w0.tasks_performed ∧
    (w0.execute_task_return (some 5)
        (TaskResult.raised : TaskResult (Option Nat))).worker.tasks_performed
      = w0.tasks_performed := by decide

/-- C4 (amended): for every running worker and both submission variants,
`tasks_performed` increases by exactly one on a success and on a
fire-and-forget dispatch, and is unchanged on a timeout outcome and on an
exception outcome; over all inputs the counter never decreases. -/
theorem tasks_performed_counter (w : Worker) (hw : w.running = true)
    (t : Option Nat) (res : TaskResult Unit) (res' : TaskResult (Option Nat)) :
    ((w.execute_task t res).worker.tasks_performed =
      if t = some 0 ∨ res.isResolved = true then w.tasks_performed + 1
      else w.tasks_performed) ∧
    ((w.execute_task_return t res').worker.tasks_performed =
      if t = some 0 ∨ res'.isResolved = true then w.tasks_performed + 1
      else w.tasks_performed) ∧
    (∀ (w₂ : Worker) (t₂ : Option Nat) (r₂ : TaskResult Unit) (r₃ : TaskResult (Option Nat)),
      w₂.tasks_performed ≤ (w₂.execute_task t₂ r₂).worker.tasks_performed ∧
      w₂.tasks_performed ≤ (w₂.execute_task_return t₂ r₃).worker.tasks_performed) := by
  refine ⟨?_, ?_, ?_⟩
  · by_cases ht : t = some 0 <;> cases res <;>
      simp [Worker.execute_task, TaskResult.isResolved, hw, ht]
  · by_cases ht : t = some 0 <;> cases res' <;>
      simp [Worker.execute_task_return, TaskResult.isResolved, hw, ht]
  · intro w₂ t₂ r₂ r₃
    constructor
    · by_cases hr : w₂.running = false <;> by_cases ht₂ : t₂ = some 0 <;> cases r₂ <;>
        simp [Worker.execute_task, hr, ht₂]
    · by_cases hr : w₂.running = false <;> by_cases ht₂ : t₂ = some 0 <;> cases r₃ <;>
        simp [Worker.execute_task_return, hr, ht₂]

/-- C4 witness: the amended counter law evaluated at a concrete running
worker, on a success, a timeout and an exception. -/
theorem tasks_performed_counter_witness :
    (w0.execute_task (some 5) (TaskResult.resolved ())).worker.tasks_performed = 1 ∧
    (w0.execute_task (some 5) (TaskResult.timedOut : TaskResult Unit)).worker.tasks_performed = 0 ∧
    (w0.execute_task_return (some 5)
        (TaskResult.raised : TaskResult (Option Nat))).worker.tasks_performed = 0 := by
  have h₁ := tasks_performed_counter w0 (by decide) (some 5)
      (TaskResult.resolved ()) (TaskResult.raised)
  have h₂ := tasks_performed_counter w0 (by decide) (some 5)
      (TaskResult.timedOut) (TaskResult.raised)
  refine ⟨?_, ?_, ?_⟩
  · simpa [w0, TaskResult.isResolved] using h₁.1
  · simpa [w0, TaskResult.isResolved] using h₂.1
  · simpa [w0, TaskResult.isResolved] using h₁.2.1

/-- C6 counterexample: starting a fresh worker twice on an empty pool
registers it twice — it ends up occurring at two indices of the pool's
workers list — and its id changes from 0 to 1; only the thread spawn is
guarded (exactly one spawn across both calls). -/
theorem start_double_registration_cex :
    (wFresh.start ⟨[], 0⟩).1.index = some 0 ∧
    ((wFresh.start ⟨[], 0⟩).1.start (wFresh.start ⟨[], 0⟩).2).1.index = some 1 ∧
    ((wFresh.start ⟨[], 0⟩).1.start (wFresh.start ⟨[], 0⟩).2).2.workers.countP
        (fun x => x.ref == wFresh.ref) = 2 ∧
    ((wFresh.start ⟨[], 0⟩).1.start (wFresh.start ⟨[], 0⟩).2).1.threadsSpawned = 1 := by
  decide

/-- C6 (amended): a second `start()` on the same worker does not restart
the thread (no new thread is spawned and the thread slot stays occupied),
but it is not registration-idempotent: every `start()` call appends the
worker to the pool's workers list again — so after the second call the
worker occurs one more time in the list and twice more than before the
first call — and reassigns its id to the newly returned index. -/
theorem start_second_call (w : Worker) (q : WorkerQueue) :
    ((w.start q).1.start (w.start q).2).1.threadsSpawned = (w.start q).1.threadsSpawned ∧
    ((w.start q).1.start (w.start q).2).1.hasThread = true ∧
    ((w.start q).1.start (w.start q).2).2.workers = (w.start q).2.workers ++ [(w.start q).1] ∧
    ((w.start q).1.start (w.start q).2).1.index = some ((w.start q).2.workers.length) ∧
    (w.start q).2.workers.length = q.workers.length + 1 ∧
    ((w.start q).1.start (w.start q).2).2.workers.countP (fun x => x.ref == w.ref) =
      q.workers.countP (fun x => x.ref == w.ref) + 2 := by
  by_cases h : w.hasThread <;>
    simp [Worker.start, WorkerQueue.add_worker, h, List.countP_append, List.countP_cons]

/-- C5 counterexample: a gateway-wrapped call with no timeout value among
its keyword arguments does not submit the task to the worker with a
bounded (approximately 10 second) policy — it performs no worker
submission at all: the extracted default is `None`, the submission
expression raises `TypeError` on its keyword arguments, nothing is
scheduled on the worker, and the capability runs on the fallback
context. -/
theorem gateway_no_submission_cex :
    (offload_fallback_return ⟨[w0], 0⟩ none (some 7)).task_timeout = none ∧
    (offload_fallback_return ⟨[w0], 0⟩ none (some 7)).submitted = none ∧
    (offload_fallback_return ⟨[w0], 0⟩ none (some 7)).workerScheduled = false ∧
    (offload_fallback_return ⟨[w0], 0⟩ none (some 7)).fallbackRan = true := by decide

/-- C5 (amended): for every gateway-wrapped call whose keyword arguments
do not supply a timeout value, the gateway extracts timeout policy `None`
— the unbounded wait, not a bounded default
(`kwargs.pop('task_timeout', None)`) — and in fact never submits the task
to a worker at all with any policy: the `run_in_executor` call passes
keyword arguments its signature rejects, so the raised `TypeError` is
caught and every call executes the capability on the fallback context
without a worker submission. -/
theorem gateway_default_timeout_never_submits (q : WorkerQueue)
    (kt : Option (Option Nat)) (fb : Option Nat) :
    gatewayTaskTimeout none = none ∧
    (offload_fallback q none).task_timeout = none ∧
    (offload_fallback_return q none fb).task_timeout = none ∧
    (offload_fallback q kt).submitted = none ∧
    (offload_fallback q kt).workerScheduled = false ∧
    (offload_fallback_return q kt fb).submitted = none ∧
    (offload_fallback_return q kt fb).workerScheduled = false := by
  refine ⟨rfl, ?_, ?_, ?_, ?_, ?_, ?_⟩ <;>
    cases hga : q.get_available_worker.1 <;>
      simp [offload_fallback, offload_fallback_return, hga, gatewayTaskTimeout]

/-- C1: for every gateway-wrapped call for which the pool yields no worker
(in particular a pool with zero registered workers) or for which the
worker submission fails — in this program the submission attempt fails on
every call, since `run_in_executor` rejects the keyword arguments it is
given — the gateway runs the wrapped capability against the fallback
(master bot) context and returns that outcome to the caller: `True` (the
success outcome) for the command variant, the fallback result for the
return variant. The call returns normally rather than surfacing a
no-worker error. -/
theorem gateway_falls_back_on_failure (q : WorkerQueue) (kt : Option (Option Nat))
    (fb : Option Nat) :
    (offload_fallback q kt).fallbackRan = true ∧
    (offload_fallback q kt).ret = true ∧
    (offload_fallback_return q kt fb).fallbackRan = true ∧
    (offload_fallback_return q kt fb).ret = fb := by
  refine ⟨?_, ?_, ?_, ?_⟩ <;>
    cases hga : q.get_available_worker.1 <;>
      simp [offload_fallback, offload_fallback_return, hga]

/-- C3: for every single gateway-wrapped call, exactly one of the worker
path and the fallback path executes the underlying capability — in this
program it is always the fallback path: the submission expression raises
`TypeError` on its keyword arguments before the worker-side method can
run, so no task is ever scheduled on a worker and the capability executes
exactly once, on the fallback context. In particular the gateway never
runs the capability on the fallback after a completed worker-side
execution, since no worker-side execution can occur. -/
theorem gateway_exactly_one_path (q : WorkerQueue) (kt : Option (Option Nat))
    (fb : Option Nat) :
    (offload_fallback q kt).workerScheduled = false ∧
    (offload_fallback q kt).fallbackRan = true ∧
    (offload_fallback_return q kt fb).workerScheduled = false ∧
    (offload_fallback_return q kt fb).fallbackRan = true := by
  refine ⟨?_, ?_, ?_, ?_⟩ <;>
    cases hga : q.get_available_worker.1 <;>
      simp [offload_fallback, offload_fallback_return, hga]

/-- Helper for C2: in a pool whose single registered worker is dead, every
probe of the nearest-running search leaves the cursor at 1, which never
equals the captured start index 0, so the loop never reaches its exit
condition from any cursor value. -/
theorem nearest_all_dead_stuck (fuel : Nat) : ∀ c : Nat,
    WorkerQueue.nearestRunningFuel 0 fuel ⟨[deadWorker], c⟩ = none := by
  induction fuel with
  | zero => intro c; rfl
  | succ n ih =>
    intro c
    have hc : WorkerQueue.normIndex ⟨[deadWorker], c⟩ = 0 := by
      simp only [WorkerQueue.normIndex, List.length_singleton]
      split <;> omega
    simp only [WorkerQueue.nearestRunningFuel, WorkerQueue.getWorkerNoSearch, hc]
    simp [deadWorker]
    exact ih 1

/-- C2 (code bug): with one registered worker that is not running and the
pool cursor at its initial value 0, the liveness-aware selection
`get_worker(search=True)` never terminates: for every probe budget it is
still looping — the cursor after each probe is at least 1 and never
revisits the captured start index 0, so the cycle-detection check never
fires — instead of returning `None` within N probes as the spec states. -/
theorem select_search_diverges (fuel : Nat) :
    qAllDead.get_worker fuel true = none := by
  have h := nearest_all_dead_stuck fuel 0
  simp only [qAllDead]
  simp only [WorkerQueue.get_worker, WorkerQueue.normIndex, List.length_singleton]
  simp only [deadWorker] at h ⊢
  simp [h]

/-- The cursor positions selected by `n` successive `get_worker` calls on
a pool of `len` workers starting from cursor `c`: each call normalizes the
cursor (reset to 0 when out of range), selects it, and advances by one.
Proof-side companion of `runSelections` for the all-running case. -/
def posList (len : Nat) : Nat → Nat → List Nat
  | 0, _ => []
  | n + 1, c =>
    let i := if len ≤ c then 0 else c
    i :: posList len n (i + 1)

/-- Helper for C7: on a non-empty pool with every worker running,
`get_worker` always returns the worker at the normalized cursor and
advances the cursor past it, for either search flag. -/
theorem get_worker_all_running (ws : List Worker) (c fuel : Nat) (s : Bool)
    (hne : ws ≠ []) (hall : ∀ w ∈ ws, w.running = true) :
    ∃ w, ws.get? (WorkerQueue.normIndex ⟨ws, c⟩) = some w ∧
      WorkerQueue.get_worker ⟨ws, c⟩ fuel s =
        some (.found w ⟨ws, WorkerQueue.normIndex ⟨ws, c⟩ + 1⟩) := by
  have hpos : 0 < ws.length := List.length_pos.mpr hne
  have hlt : WorkerQueue.normIndex ⟨ws, c⟩ < ws.length := by
    simp only [WorkerQueue.normIndex]
    split <;> omega
  refine ⟨ws.get ⟨WorkerQueue.normIndex ⟨ws, c⟩, hlt⟩, List.get?_eq_get hlt, ?_⟩
  have hw := hall _ (List.get?_mem (List.get?_eq_get hlt))
  simp only [WorkerQueue.get_worker, List.get?_eq_get hlt, hw]
  simp

/-- Helper for C7: on a non-empty all-running pool, the selections made by
`runSelections` are exactly the workers at the positions of `posList`. -/
theorem runSelections_all_running (ws : List Worker) (hne : ws ≠ [])
    (hall : ∀ w ∈ ws, w.running = true) (fuel : Nat) (s : Bool) :
    ∀ (n c : Nat),
      (runSelections fuel s n ⟨ws, c⟩).1 =
        (posList ws.length n c).map (fun i => ws.get? i) := by
  intro n
  induction n with
  | zero => intro c; rfl
  | succ m ih =>
    intro c
    obtain ⟨w, hw, hgw⟩ := get_worker_all_running ws c fuel s hne hall
    simp only [runSelections, hgw, posList, List.map_cons]
    rw [ih]
    have hnorm : (if ws.length ≤ c then 0 else c) = WorkerQueue.normIndex ⟨ws, c⟩ := rfl
    rw [hnorm, hw]

/-- Helper for C7: a run of selections that stays inside the list bounds
visits consecutive positions. -/
theorem posList_straight (len : Nat) :
    ∀ (n p : Nat), p + n ≤ len → posList len n p = (List.range n).map (p + ·) := by
  intro n
  induction n with
  | zero => intro p _; rfl
  | succ m ih =>
    intro p hp
    have hlt : ¬ (len ≤ p) := by omega
    simp only [posList, hlt, if_false]
    rw [ih (p + 1) (by omega), List.range_succ_eq_map]
    simp only [List.map_cons, List.map_map]
    refine congrArg₂ _ (by omega) ?_
    refine List.map_congr_left ?_
    intro a _
    simp only [Function.comp_apply, Nat.succ_eq_add_one]
    omega

/-- Helper for C7: splitting a run of selections at a point that is still
inside the list bounds. -/
theorem posList_split (len : Nat) :
    ∀ (m k p : Nat), p + m ≤ len →
      posList len (m + k) p = (List.range m).map (p + ·) ++ posList len k (p + m) := by
  intro m
  induction m with
  | zero => intro k p _; simp [posList]
  | succ m' ih =>
    intro k p hp
    have hlt : ¬ (len ≤ p) := by omega
    rw [show m' + 1 + k = (m' + k) + 1 from by omega]
    simp only [posList, hlt, if_false]
    rw [ih k (p + 1) (by omega), List.range_succ_eq_map]
    simp only [List.map_cons, List.map_map, List.cons_append]
    refine congrArg₂ _ (by omega) (congrArg₂ _ ?_ ?_)
    · refine List.map_congr_left ?_
      intro a _
      simp only [Function.comp_apply, Nat.succ_eq_add_one]
      omega
    · rw [show p + 1 + m' = p + (m' + 1) from by omega]

/-- Helper for C7: a cursor exactly one past the end behaves like cursor 0
(the normalization resets it). -/
theorem posList_wrap (len : Nat) (hlen : 0 < len) (k : Nat) :
    posList len k len = posList len k 0 := by
  cases k with
  | zero => rfl
  | succ m =>
    simp only [posList]
    have h2 : ¬ (len ≤ 0) := by omega
    simp [h2]

/-- Helper for C7: the first selection already normalizes the cursor. -/
theorem posList_norm (len : Nat) (hlen : 0 < len) (n c : Nat) :
    posList len n c = posList len n (if len ≤ c then 0 else c) := by
  cases n with
  | zero => rfl
  | succ m =>
    by_cases hc : len ≤ c
    · simp only [posList, hc, if_true]
      have h2 : ¬ (len ≤ 0) := by omega
      simp [h2]
    · simp [posList, hc]

/-- Helper for C7: over exactly `len` selections from any starting cursor,
the visited positions are a permutation of `0, ..., len - 1`. -/
theorem posList_perm (len : Nat) (hlen : 0 < len) (c : Nat) :
    (posList len len c).Perm (List.range len) := by
  rw [posList_norm len hlen]
  set p := if len ≤ c then 0 else c with hp
  have hplt : p < len := by rw [hp]; split <;> omega
  have hsplit : posList len len p =
      (List.range (len - p)).map (p + ·) ++ posList len p (p + (len - p)) := by
    have h := posList_split len (len - p) p p (by omega)
    rw [show len - p + p = len from by omega] at h
    exact h
  rw [hsplit, show p + (len - p) = len from by omega, posList_wrap len hlen,
    posList_straight len p 0 (by omega)]
  have hz : (List.range p).map (0 + ·) = List.range p := by
    simp
  rw [hz]
  refine List.Perm.trans List.perm_append_comm ?_
  rw [← List.range_add, show p + (len - p) = len from by omega]

/-- Helper for C7: reading off every position of a list in order yields
the list itself. -/
theorem range_map_get? (ws : List Worker) :
    (List.range ws.length).map (fun i => ws.get? i) = ws.map some := by
  induction ws with
  | nil => rfl
  | cons a t ih =>
    simp only [List.length_cons, List.range_succ_eq_map, List.map_cons, List.map_map]
    refine congrArg₂ _ rfl ?_
    rw [← ih]
    refine List.map_congr_left ?_
    intro i _
    rfl

/-- C7: for every pool with N ≥ 1 registered workers, all running, and for
every starting cursor value, the workers handed out by N successive
`get_worker` selections are exactly the registered workers, each exactly
once — round-robin visits every worker once before any worker repeats. -/
theorem round_robin_each_worker_once (q : WorkerQueue) (fuel : Nat) (s : Bool)
    (hne : q.workers ≠ []) (hall : ∀ w ∈ q.workers, w.running = true) :
    ((runSelections fuel s q.workers.length q).1).Perm (q.workers.map some) := by
  obtain ⟨ws, c⟩ := q
  simp only at hall hne ⊢
  rw [runSelections_all_running ws hne hall fuel s ws.length c]
  have hperm := (posList_perm ws.length (List.length_pos.mpr hne) c).map (fun i => ws.get? i)
  rw [range_map_get?] at hperm
  exact hperm

/-- C7 witness: two running workers, cursor 0 — two selections hand out
both workers exactly once. -/
theorem round_robin_each_worker_once_witness :
    ((runSelections 0 false (WorkerQueue.workers ⟨[w0, w1], 0⟩).length ⟨[w0, w1], 0⟩).1).Perm
      ([w0, w1].map some) :=
  round_robin_each_worker_once ⟨[w0, w1], 0⟩ 0 false (by decide) (by decide)
